import Mathlib

/-!
Shallow embedding of the MP4-to-MPEG batch converter (`convert.py`) and
verification of its specification claims.

Strings are modelled as `List Char`.  File modification times are modelled
as integers (the code only compares them with a strict order).  File sizes
are modelled in bytes as naturals; the megabyte values printed by the
report are exact rationals.
-/

/-- Characters removed by the sanitiser, the character class of the
regular expression in `sanitize_filename`. -/
def illegalChars : List Char := ['<', '>', ':', '"', '/', '\\', '|', '?', '*']

/-- Embedding of `sanitize_filename`: delete the illegal characters, then
keep only the first 150 characters when the result is longer than 150. -/
def sanitize_filename (filename : List Char) : List Char :=
  let clean := filename.filter (fun c => decide (c ∉ illegalChars))
  if clean.length > 150 then clean.take 150 else clean

/-- Python `str.split(sep)` on a single-character separator: the empty
string splits to one empty field. -/
def pySplit (sep : Char) : List Char → List (List Char)
  | [] => [[]]
  | c :: rest =>
    match pySplit sep rest with
    | [] => [[]]
    | l :: ls => if c = sep then [] :: l :: ls else (c :: l) :: ls

/-- Whitespace removed by Python `str.strip()`. -/
def pyIsSpace (c : Char) : Bool :=
  c == ' ' || c == '\t' || c == '\n' || c == '\r' || c == '\x0b' || c == '\x0c'

/-- Python `str.strip()`: drop leading and trailing whitespace. -/
def pyStrip (s : List Char) : List Char :=
  ((s.dropWhile pyIsSpace).reverse.dropWhile pyIsSpace).reverse

/-- Python `str.lower()` (the code only meets ASCII here). -/
def pyLower (s : List Char) : List Char := s.map Char.toLower

/-- Does `needle` occur at the start of `haystack`? -/
def startsWith : List Char → List Char → Bool
  | [], _ => true
  | _ :: _, [] => false
  | a :: as, b :: bs => a == b && startsWith as bs

/-- Python `needle in haystack` on strings: contiguous substring test. -/
def containsSub (needle : List Char) : List Char → Bool
  | [] => needle.isEmpty
  | b :: bs => startsWith needle (b :: bs) || containsSub needle bs

/-- Does `needle` occur at the end of `haystack`?  Python `str.endswith`. -/
def endsWith (needle haystack : List Char) : Bool :=
  startsWith needle.reverse haystack.reverse

/-- Python `s[-n:]`: the last `n` characters (all of `s` when it is shorter). -/
def lastChars (n : Nat) (s : List Char) : List Char := s.drop (s.length - n)

def errorWord : List Char := "error".toList

def failedWord : List Char := "failed".toList

def unknownErrorMsg : List Char := "Unknown error".toList

/-- Test of the error-scan loop in `convert_file`: the line, lowered,
contains "error" or "failed". -/
def hasErrorOrFailed (line : List Char) : Bool :=
  containsSub errorWord (pyLower line) || containsSub failedWord (pyLower line)

/-- Embedding of the nonzero-exit branch of `convert_file`: scan the
stderr lines for the first one containing "error" or "failed"
(case-insensitively) and strip it; when the scan leaves the message
empty, fall back to the last 500 characters of stderr, or to
"Unknown error" when that is empty. -/
def extract_error_msg (stderr : List Char) : List Char :=
  let error_lines := pySplit '\n' stderr
  let error_msg :=
    match error_lines.find? hasErrorOrFailed with
    | some line => pyStrip line
    | none => []
  if error_msg.isEmpty then
    let fallback := lastChars 500 stderr
    if fallback.isEmpty then unknownErrorMsg else fallback
  else error_msg

/-- The `timeout=600` argument of the `subprocess.run` call (seconds). -/
def subprocessTimeoutSecs : Nat := 600

/-- Description of the `subprocess.TimeoutExpired` exception raised when
the tool exceeds the deadline (the exact Python rendering is abstracted). -/
def timeoutExcMsg : List Char := "TimeoutExpired".toList

/-- Success log message of `convert_file`.  The Python renders the two
sizes as floating-point megabytes with a compression percentage; the model
keeps the raw byte sizes, since no claim constrains the success text. -/
def successMsg (inputSize outputSize : Nat) : List Char :=
  "Ukuran: ".toList ++ (Nat.repr outputSize).toList ++ "B/".toList
    ++ (Nat.repr inputSize).toList ++ "B".toList

/-- Environment of one `convert_file` call: the outcomes of its
filesystem and process steps, in the order the steps run.
`copyInExc`/`launchExc`/`copyOutExc` are the descriptions of the
exceptions those steps would raise (`none` when the step succeeds);
`runtime` is the wall-clock seconds the external tool would take;
`returncode` and `stderr` are the process result; the sizes are the bytes
of the input file and of the produced output file. -/
structure ConvertEnv where
  copyInExc : Option (List Char)
  launchExc : Option (List Char)
  runtime : Nat
  returncode : Int
  stderr : List Char
  copyOutExc : Option (List Char)
  inputSize : Nat
  outputSize : Nat

/-- Embedding of `convert_file`: copy the input into the scoped temp
directory, run the tool under the 600-second deadline, then either copy
the output out and report the sizes (exit code 0) or extract an error
message from stderr; every exception of a step is caught by the
surrounding `try` and returned as a failure result. -/
def convert_file (env : ConvertEnv) : Bool × List Char :=
  match env.copyInExc with
  | some e => (false, e)
  | none =>
    match env.launchExc with
    | some e => (false, e)
    | none =>
      if subprocessTimeoutSecs < env.runtime then
        (false, timeoutExcMsg)
      else if env.returncode = 0 then
        match env.copyOutExc with
        | some e => (false, e)
        | none => (true, successMsg env.inputSize env.outputSize)
      else
        (false, extract_error_msg env.stderr)

/-- The first exception arising during the steps of `convert_file`, if
any: input-copy failure, process-launch failure, deadline timeout, or
(after a zero exit code) output-copy failure. -/
def stepException (env : ConvertEnv) : Option (List Char) :=
  match env.copyInExc with
  | some e => some e
  | none =>
    match env.launchExc with
    | some e => some e
    | none =>
      if subprocessTimeoutSecs < env.runtime then some timeoutExcMsg
      else if env.returncode = 0 then env.copyOutExc
      else none

/-- Candidate locations tried by `get_ffmpeg_path`, in priority order. -/
def ffmpegCandidates : List (List Char) :=
  ["ffmpeg".toList,
   "C:\\ffmpeg\\bin\\ffmpeg.exe".toList,
   "C:\\Program Files\\ffmpeg\\bin\\ffmpeg.exe".toList,
   "C:\\Program Files (x86)\\ffmpeg\\bin\\ffmpeg.exe".toList]

/-- Embedding of `get_ffmpeg_path`.  `available p` models the truth of
`shutil.which(p) or os.path.exists(p)`; the function returns the first
available candidate, or `none` (the Python `None`, after logging install
guidance) when none is. -/
def get_ffmpeg_path (available : List Char → Bool) : Option (List Char) :=
  ffmpegCandidates.find? available

def dotMp4 : List Char := ".mp4".toList

def dotMpeg : List Char := ".mpeg".toList

/-- Python `os.path.splitext` root on a basename (no separators): cut at
the last dot, unless every character before that dot is itself a dot. -/
def splitextRoot (s : List Char) : List Char :=
  match s.reverse.findIdx? (fun c => c == '.') with
  | none => s
  | some j =>
    let idx := s.length - 1 - j
    if (s.take idx).any (fun c => c != '.') then s.take idx else s

/-- Output filename derived from an input basename, as computed both by
the conversion loop and by the failed-manifest writer:
`splitext(sanitize_filename(name))[0] + ".mpeg"`. -/
def outputName (name : List Char) : List Char :=
  splitextRoot (sanitize_filename name) ++ dotMpeg

/-- One file yielded by the `os.walk` traversal, together with the
answers the filesystem gives at each point the run queries it:
`inMtime`/`outExists`/`outMtime` at the skip check, `conv` the
environment of the `convert_file` call should it be invoked,
`existsAtReport`/`sizeAtReport` when the aggregate input size is summed,
and `outExistsAtEnd` when the failed manifest re-checks the derived
output path. -/
structure WalkedFile where
  name : List Char
  inMtime : Int
  outExists : Bool
  outMtime : Int
  conv : ConvertEnv
  existsAtReport : Bool
  sizeAtReport : Nat
  outExistsAtEnd : Bool

/-- The world one `convert_folder` run observes: tool availability, the
files yielded by the directory walk in traversal order, and the output
directory listing (name and size in bytes) at report time. -/
structure World where
  toolAvailable : List Char → Bool
  walked : List WalkedFile
  outputListing : List (List Char × Nat)

/-- The discovery filter: `file.lower().endswith('.mp4')`. -/
def isMp4 (name : List Char) : Bool := endsWith dotMp4 (pyLower name)

/-- The discovered files of a run, in walk order. -/
def discovered (w : World) : List WalkedFile := w.walked.filter (fun f => isMp4 f.name)

/-- The skip test of the conversion loop: the output path exists and its
modification time is strictly newer than the input's. -/
def skipFresh (f : WalkedFile) : Bool :=
  f.outExists && decide (f.inMtime < f.outMtime)

/-- One iteration of the conversion loop.  The accumulator carries the
running `success_count` and the names of the files for which
`convert_file` has been invoked: a fresh output counts as success
without an invocation, otherwise `convert_file` runs and success is its
verdict. -/
def loopStep (acc : Nat × List (List Char)) (f : WalkedFile) : Nat × List (List Char) :=
  if skipFresh f then (acc.1 + 1, acc.2)
  else
    let res := convert_file f.conv
    (if res.1 then acc.1 + 1 else acc.1, acc.2 ++ [f.name])

/-- The whole conversion loop over the discovered files. -/
def runLoop (files : List WalkedFile) : Nat × List (List Char) :=
  files.foldl loopStep (0, [])

/-- Aggregate input size: sum of the sizes of the discovered input files
that still exist at report time. -/
def totalInputSize (files : List WalkedFile) : Nat :=
  (files.filter (fun f => f.existsAtReport)).foldl (fun a f => a + f.sizeAtReport) 0

/-- Aggregate output size: sum of the sizes of all files in the output
directory listing whose name ends with ".mpeg". -/
def totalOutputSize (listing : List (List Char × Nat)) : Nat :=
  (listing.filter (fun p => endsWith dotMpeg p.1)).foldl (fun a p => a + p.2) 0

/-- The size block of the report: total bytes in and out, and the
savings percentage, zero-guarded on an empty input total. -/
structure SizeReport where
  totalInputBytes : Nat
  totalOutputBytes : Nat
  savingsPercent : ℚ

/-- Build the size block as the report does: convert both byte totals to
megabytes, and divide only when the input total is positive. -/
def mkSizeReport (inBytes outBytes : Nat) : SizeReport :=
  let inMB : ℚ := (inBytes : ℚ) / (1024 * 1024)
  let outMB : ℚ := (outBytes : ℚ) / (1024 * 1024)
  ⟨inBytes, outBytes, if 0 < inMB then (inMB - outMB) / inMB * 100 else 0⟩

/-- The counter block of the final report. -/
structure RunReport where
  totalFiles : Nat
  successCount : Nat
  failedCount : Nat

def manifestSep : List Char := ". ".toList

/-- Lines of the failed-files manifest: for each discovered file, in
order and 1-indexed, whose derived output path does not exist at the end
of the run, the line "index. original-filename". -/
def manifestLines (files : List WalkedFile) : List (List Char) :=
  ((List.enumFrom 1 files).filter (fun p => !p.2.outExistsAtEnd)).map
    (fun p => (Nat.repr p.1).toList ++ manifestSep ++ p.2.name)

/-- Observable effects of one `convert_folder` run: whether the output
directory was created (`os.makedirs`), whether the no-files warning was
logged, which files had `convert_file` invoked, the counter report, the
size block (absent when no file counted as success), and the failed-files
manifest (absent when none failed; when written it overwrites any prior
one and these are its lines after the header). -/
structure FolderEffects where
  mkdirCalled : Bool
  warnedNoFiles : Bool
  invoked : List (List Char)
  report : Option RunReport
  sizeReport : Option SizeReport
  manifest : Option (List (List Char))

/-- Embedding of `convert_folder`: locate the tool (aborting when it is
missing), create the output directory, discover the `.mp4` files
(warning and stopping when there are none), run the conversion loop,
emit the counter report, compute the size aggregates when at least one
file counted as success, and write the failed manifest when the success
count falls short of the total. -/
def convert_folder (w : World) : FolderEffects :=
  match get_ffmpeg_path w.toolAvailable with
  | none => ⟨false, false, [], none, none, none⟩
  | some _ =>
    let files := discovered w
    if files.isEmpty then ⟨true, true, [], none, none, none⟩
    else
      let total := files.length
      let r := runLoop files
      let success_count := r.1
      let sizeRep :=
        if 0 < success_count then
          some (mkSizeReport (totalInputSize files) (totalOutputSize w.outputListing))
        else none
      let manifest :=
        if success_count < total then some (manifestLines files) else none
      ⟨true, false, r.2, some ⟨total, success_count, total - success_count⟩, sizeRep, manifest⟩

/-- The sanitiser always equals: delete illegal characters, then keep the
first 150 characters. -/
theorem sanitize_filename_eq_take (s : List Char) :
    sanitize_filename s = (s.filter (fun c => decide (c ∉ illegalChars))).take 150 := by
  simp only [sanitize_filename]
  split
  · rfl
  · next h => exact (List.take_of_length_le (by omega)).symm

/-- C1: for every input string, `sanitize_filename` returns a string with
none of the characters < > : " / \ | ? *, of length at most 150, obtained
by deleting the illegal characters and then prefix-truncating to 150; as a
total Lean function it is pure and deterministic. -/
theorem sanitize_filename_correct (s : List Char) :
    (∀ c ∈ sanitize_filename s, c ∉ illegalChars) ∧
    (sanitize_filename s).length ≤ 150 ∧
    sanitize_filename s = (s.filter (fun c => decide (c ∉ illegalChars))).take 150 := by
  refine ⟨?_, ?_, sanitize_filename_eq_take s⟩
  · intro c hc
    rw [sanitize_filename_eq_take] at hc
    have hc2 := List.take_subset _ _ hc
    have hmem := (List.mem_filter.mp hc2).2
    simpa using hmem
  · rw [sanitize_filename_eq_take]
    exact le_trans (le_of_eq (List.length_take _ _)) (min_le_left _ _)

/-- C10: `sanitize_filename` is idempotent, and is the identity on every
string of length at most 150 containing no illegal character. -/
theorem sanitize_filename_idempotent (s : List Char) :
    sanitize_filename (sanitize_filename s) = sanitize_filename s ∧
    (s.length ≤ 150 → (∀ c ∈ s, c ∉ illegalChars) → sanitize_filename s = s) := by
  constructor
  · rw [sanitize_filename_eq_take, sanitize_filename_eq_take]
    have hsub : ∀ c ∈ (s.filter (fun c => decide (c ∉ illegalChars))).take 150,
        (fun c => decide (c ∉ illegalChars)) c = true := by
      intro c hc
      exact (List.mem_filter.mp (List.take_subset _ _ hc)).2
    rw [List.filter_eq_self.mpr hsub, List.take_take]
    simp
  · intro hlen hclean
    rw [sanitize_filename_eq_take]
    rw [List.filter_eq_self.mpr (by intro a ha; simpa using hclean a ha)]
    exact List.take_of_length_le (by omega)

def aName : List Char := "a.mp4".toList

/-- Witness for C10 at the concrete filename "a.mp4". -/
theorem sanitize_filename_idempotent_witness :
    aName.length ≤ 150 ∧ (∀ c ∈ aName, c ∉ illegalChars) ∧
    sanitize_filename aName = aName :=
  ⟨by decide, by decide, (sanitize_filename_idempotent aName).2 (by decide) (by decide)⟩

/-- C2: a loop iteration counts a file as success without invoking the
Converter exactly when its output file exists and the output's
modification time is strictly greater than the input's; whenever the
output's time is not strictly newer, the Converter is invoked on the
file. -/
theorem skip_rule_iff (acc : Nat × List (List Char)) (f : WalkedFile) :
    (((loopStep acc f).1 = acc.1 + 1 ∧ (loopStep acc f).2 = acc.2) ↔
      (f.outExists = true ∧ f.inMtime < f.outMtime)) ∧
    (¬ f.inMtime < f.outMtime → (loopStep acc f).2 = acc.2 ++ [f.name]) := by
  by_cases hs : skipFresh f = true
  · have hcond : f.outExists = true ∧ f.inMtime < f.outMtime := by
      simpa [skipFresh] using hs
    constructor
    · simp [loopStep, hs, hcond]
    · intro hlt
      exact absurd hcond.2 hlt
  · constructor
    · simp only [loopStep, if_neg hs]
      constructor
      · intro h
        have h2 := h.2
        simp at h2
      · intro hcond
        exact absurd (by simp [skipFresh, hcond.1, hcond.2]) hs
    · intro _
      simp [loopStep, hs]

def errInvalidData : List Char := "Error: invalid data".toList

def envFail : ConvertEnv := ⟨none, none, 0, 1, errInvalidData, none, 0, 0⟩

def bStale : WalkedFile := ⟨"b.mp4".toList, 5, true, 5, envFail, true, 10, false⟩

/-- Witness for C2: a file whose output timestamp equals the input's is
not skipped, so the Converter is invoked on it. -/
theorem skip_rule_iff_witness :
    ¬ bStale.inMtime < bStale.outMtime ∧
    (loopStep (0, []) bStale).2 = [] ++ [bStale.name] :=
  ⟨by decide, (skip_rule_iff (0, []) bStale).2 (by decide)⟩

/-- C5: whenever any step of `convert_file` raises an exception — input
copy, process launch, the 600-second deadline, or output copy — the
exception is caught and `convert_file` returns a failure result carrying
the exception's description; in particular a timeout is a failure, not a
retry.  Being a total Lean function, the embedding never propagates an
exception to its caller. -/
theorem convert_file_catches_exceptions (env : ConvertEnv) (e : List Char) :
    (stepException env = some e → convert_file env = (false, e)) ∧
    (env.copyInExc = none → env.launchExc = none →
      subprocessTimeoutSecs < env.runtime →
      convert_file env = (false, timeoutExcMsg)) := by
  constructor
  · intro h
    cases hc : env.copyInExc with
    | some e1 =>
      simp [stepException, hc] at h
      simp [convert_file, hc, h]
    | none =>
      cases hl : env.launchExc with
      | some e2 =>
        simp [stepException, hc, hl] at h
        simp [convert_file, hc, hl, h]
      | none =>
        by_cases ht : subprocessTimeoutSecs < env.runtime
        · simp [stepException, hc, hl, ht] at h
          simp [convert_file, hc, hl, ht, h]
        · by_cases hr : env.returncode = 0
          · simp [stepException, hc, hl, ht, hr] at h
            simp [convert_file, hc, hl, ht, hr, h]
          · simp [stepException, hc, hl, ht, hr] at h
  · intro h1 h2 h3
    simp [convert_file, h1, h2, h3]

def envTimeout : ConvertEnv := ⟨none, none, 601, 0, [], none, 0, 0⟩

/-- Witness for C5: a tool run lasting 601 seconds times out and is
returned as a failure carrying the timeout exception's description. -/
theorem convert_file_catches_exceptions_witness :
    stepException envTimeout = some timeoutExcMsg ∧
    convert_file envTimeout = (false, timeoutExcMsg) :=
  ⟨rfl, (convert_file_catches_exceptions envTimeout timeoutExcMsg).1 rfl⟩

/-- Every character of a matched leading needle occurs in the haystack. -/
theorem startsWith_mem : ∀ (n h : List Char), startsWith n h = true → ∀ c ∈ n, c ∈ h
  | [], _, _, c, hc => absurd hc (List.not_mem_nil c)
  | _ :: _, [], hs, _, _ => by simp [startsWith] at hs
  | a :: as, b :: bs, hs, c, hc => by
    simp only [startsWith, Bool.and_eq_true, beq_iff_eq] at hs
    rcases List.mem_cons.mp hc with h1 | h1
    · rw [h1, hs.1]
      exact List.mem_cons_self _ _
    · exact List.mem_cons_of_mem _ (startsWith_mem as bs hs.2 c h1)

/-- Every character of a contained substring occurs in the haystack. -/
theorem containsSub_mem : ∀ (n h : List Char), containsSub n h = true → ∀ c ∈ n, c ∈ h
  | n, [], hc, c, hn => by
    simp only [containsSub, List.isEmpty_eq_true] at hc
    subst hc
    exact absurd hn (List.not_mem_nil c)
  | n, b :: bs, hc, c, hn => by
    simp only [containsSub, Bool.or_eq_true] at hc
    rcases hc with hc | hc
    · exact startsWith_mem n (b :: bs) hc c hn
    · exact List.mem_cons_of_mem _ (containsSub_mem n bs hc c hn)

/-- Lowercasing fixes every Python whitespace character. -/
theorem pyIsSpace_toLower (c : Char) (h : pyIsSpace c = true) : Char.toLower c = c := by
  simp only [pyIsSpace, Bool.or_eq_true, beq_iff_eq] at h
  rcases h with ((((h | h) | h) | h) | h) | h <;> subst h <;> decide

/-- A line made only of whitespace matches neither "error" nor "failed". -/
theorem hasErrorOrFailed_of_space (l : List Char)
    (hsp : ∀ c ∈ l, pyIsSpace c = true) : hasErrorOrFailed l = false := by
  cases hb : hasErrorOrFailed l with
  | false => rfl
  | true =>
    exfalso
    simp only [hasErrorOrFailed, Bool.or_eq_true] at hb
    have key : ∀ d : Char, ¬ pyIsSpace d = true → d ∉ pyLower l := by
      intro d hd hmem
      rcases List.mem_map.mp hmem with ⟨c, hcl, hc⟩
      have hspc := hsp c hcl
      rw [pyIsSpace_toLower c hspc] at hc
      rw [hc] at hspc
      exact hd hspc
    rcases hb with hb | hb
    · exact key 'e' (by decide) (containsSub_mem _ _ hb 'e' (by decide))
    · exact key 'f' (by decide) (containsSub_mem _ _ hb 'f' (by decide))

/-- When stripping empties a string, it was all whitespace. -/
theorem pyStrip_eq_nil_all_space (l : List Char) (h : pyStrip l = []) :
    ∀ c ∈ l, pyIsSpace c = true := by
  unfold pyStrip at h
  rw [List.reverse_eq_nil_iff, List.dropWhile_eq_nil_iff] at h
  intro c hc
  rw [← List.takeWhile_append_dropWhile pyIsSpace l] at hc
  rcases List.mem_append.mp hc with h1 | h1
  · exact List.mem_takeWhile_imp h1
  · exact h c (List.mem_reverse.mpr h1)

/-- A line matching the error scan never strips to the empty string. -/
theorem strip_ne_nil_of_match (line : List Char)
    (h : hasErrorOrFailed line = true) : pyStrip line ≠ [] := by
  intro hnil
  rw [hasErrorOrFailed_of_space line (pyStrip_eq_nil_all_space line hnil)] at h
  exact Bool.false_ne_true h

/-- The last 500 characters of a nonempty string are nonempty. -/
theorem lastChars_ne_nil (s : List Char) (h : s ≠ []) : lastChars 500 s ≠ [] := by
  intro hnil
  rw [lastChars, List.drop_eq_nil_iff] at hnil
  have hpos : 0 < s.length := List.length_pos.mpr h
  omega

/-- C3 (amended): on a nonzero exit code the failure message is the first
stderr line containing "error" or "failed" case-insensitively, with
leading and trailing whitespace stripped; when no line matches it is the
last 500 characters of stderr, and the generic "Unknown error" marker
when stderr is empty. -/
theorem extract_error_msg_cases (stderr line : List Char) :
    ((pySplit '\n' stderr).find? hasErrorOrFailed = some line →
      extract_error_msg stderr = pyStrip line) ∧
    ((pySplit '\n' stderr).find? hasErrorOrFailed = none → stderr ≠ [] →
      extract_error_msg stderr = lastChars 500 stderr) ∧
    ((pySplit '\n' stderr).find? hasErrorOrFailed = none → stderr = [] →
      extract_error_msg stderr = unknownErrorMsg) := by
  refine ⟨?_, ?_, ?_⟩
  · intro h
    have hline : hasErrorOrFailed line = true := List.find?_some h
    have hne : pyStrip line ≠ [] := strip_ne_nil_of_match line hline
    simp only [extract_error_msg, h]
    rw [if_neg (by simp [List.isEmpty_eq_true, hne])]
  · intro h hs
    simp only [extract_error_msg, h]
    rw [if_pos (by simp), if_neg (by simp [List.isEmpty_eq_true, lastChars_ne_nil stderr hs])]
  · intro _ hs
    subst hs
    decide

def c3Stderr : List Char := " Error: bad \nok".toList

def c3RawLine : List Char := " Error: bad ".toList

def c3Stripped : List Char := "Error: bad".toList

/-- Counterexample to C3 as stated: for this stderr the first line
containing "error" carries surrounding whitespace, and the extracted
message is the stripped line, not the line itself. -/
theorem extract_error_msg_not_raw_line :
    (pySplit '\n' c3Stderr).find? hasErrorOrFailed = some c3RawLine ∧
    extract_error_msg c3Stderr ≠ c3RawLine ∧
    extract_error_msg c3Stderr = c3Stripped := by decide

def codecStderr : List Char := "frame=0\nError: codec not found\nmore".toList

def codecLine : List Char := "Error: codec not found".toList

/-- Witness for C3 (amended) on the spec's own example: the line
"Error: codec not found" is found and, stripping being the identity on
it, returned verbatim. -/
theorem extract_error_msg_cases_witness :
    (pySplit '\n' codecStderr).find? hasErrorOrFailed = some codecLine ∧
    extract_error_msg codecStderr = pyStrip codecLine ∧
    pyStrip codecLine = codecLine :=
  ⟨by decide, (extract_error_msg_cases codecStderr codecLine).1 (by decide), by decide⟩

/-- The loop's success counter grows by at most the number of files. -/
theorem runLoop_fst_le : ∀ (files : List WalkedFile) (acc : Nat × List (List Char)),
    (files.foldl loopStep acc).1 ≤ acc.1 + files.length
  | [], acc => by simp
  | f :: fs, acc => by
    have hstep : (loopStep acc f).1 ≤ acc.1 + 1 := by
      unfold loopStep
      split
      · simp
      · simp only []
        split <;> omega
    calc ((f :: fs).foldl loopStep acc).1 = (fs.foldl loopStep (loopStep acc f)).1 := by
          simp [List.foldl_cons]
      _ ≤ (loopStep acc f).1 + fs.length := runLoop_fst_le fs (loopStep acc f)
      _ ≤ acc.1 + 1 + fs.length := by omega
      _ = acc.1 + (f :: fs).length := by simp [List.length_cons]; omega

/-- A run with the tool missing produces no effects at all. -/
theorem convert_folder_none (w : World)
    (hp : get_ffmpeg_path w.toolAvailable = none) :
    convert_folder w = ⟨false, false, [], none, none, none⟩ := by
  simp only [convert_folder, hp]

/-- A run discovering no files only creates the output directory and
warns. -/
theorem convert_folder_empty (w : World) (p : List Char)
    (hp : get_ffmpeg_path w.toolAvailable = some p)
    (he : (discovered w).isEmpty = true) :
    convert_folder w = ⟨true, true, [], none, none, none⟩ := by
  simp only [convert_folder, hp, he]
  rfl

/-- Shape of a run that reaches the conversion loop and the report. -/
theorem convert_folder_main (w : World) (p : List Char)
    (hp : get_ffmpeg_path w.toolAvailable = some p)
    (he : (discovered w).isEmpty = false) :
    convert_folder w =
      ⟨true, false, (runLoop (discovered w)).2,
       some ⟨(discovered w).length, (runLoop (discovered w)).1,
             (discovered w).length - (runLoop (discovered w)).1⟩,
       (if 0 < (runLoop (discovered w)).1 then
          some (mkSizeReport (totalInputSize (discovered w)) (totalOutputSize w.outputListing))
        else none),
       (if (runLoop (discovered w)).1 < (discovered w).length then
          some (manifestLines (discovered w))
        else none)⟩ := by
  simp only [convert_folder, hp]
  rw [he]
  simp

/-- C4: the reported counters of every run that reaches the report
satisfy success + failed = total. -/
theorem report_counts_invariant (w : World) (r : RunReport) :
    (convert_folder w).report = some r →
    r.successCount + r.failedCount = r.totalFiles := by
  intro h
  cases hp : get_ffmpeg_path w.toolAvailable with
  | none =>
    rw [convert_folder_none w hp] at h
    exact absurd h (by simp)
  | some p =>
    cases he : (discovered w).isEmpty with
    | true =>
      rw [convert_folder_empty w p hp he] at h
      exact absurd h (by simp)
    | false =>
      rw [convert_folder_main w p hp he] at h
      dsimp only at h
      rw [Option.some_inj] at h
      subst h
      dsimp only
      have hle : (runLoop (discovered w)).1 ≤ (discovered w).length := by
        have hb := runLoop_fst_le (discovered w) (0, [])
        simpa [runLoop] using hb
      omega

/-- C6: when the Tool Locator finds nothing, the batch terminates before
any conversion is attempted, before the output directory is created, and
with no report, size block or manifest produced. -/
theorem tool_missing_aborts (w : World)
    (hp : get_ffmpeg_path w.toolAvailable = none) :
    convert_folder w = ⟨false, false, [], none, none, none⟩ :=
  convert_folder_none w hp

def envOk : ConvertEnv := ⟨none, none, 10, 0, [], none, 1000, 400⟩

def fileA : WalkedFile := ⟨aName, 5, false, 0, envOk, true, 1000, true⟩

def w6 : World := ⟨fun _ => false, [fileA], []⟩

/-- Witness for C6: no candidate location is available, so the run
aborts with no effects. -/
theorem tool_missing_aborts_witness :
    get_ffmpeg_path w6.toolAvailable = none ∧
    convert_folder w6 = ⟨false, false, [], none, none, none⟩ :=
  ⟨rfl, tool_missing_aborts w6 rfl⟩

/-- C8: a run discovering zero files with a (case-insensitive) ".mp4"
name terminates after the warning: no conversions, no report, no size
block, no manifest. -/
theorem no_mp4_files_warns (w : World) (p : List Char)
    (hp : get_ffmpeg_path w.toolAvailable = some p)
    (he : discovered w = []) :
    convert_folder w = ⟨true, true, [], none, none, none⟩ :=
  convert_folder_empty w p hp (by simp [he])

def txtFile : WalkedFile := ⟨"readme.txt".toList, 0, false, 0, envFail, true, 0, false⟩

def w8 : World := ⟨fun _ => true, [txtFile], []⟩

def ffmpegName : List Char := "ffmpeg".toList

/-- Witness for C8: a folder holding only "readme.txt" discovers no
file, so the run stops with the warning and no artifacts. -/
theorem no_mp4_files_warns_witness :
    get_ffmpeg_path w8.toolAvailable = some ffmpegName ∧
    discovered w8 = [] ∧
    convert_folder w8 = ⟨true, true, [], none, none, none⟩ :=
  ⟨rfl, rfl, no_mp4_files_warns w8 ffmpegName rfl rfl⟩

/-- C7: the failed-files manifest is written (overwriting any prior one)
exactly when the report counts at least one failure, and its lines are
exactly the original filenames of the discovered files whose derived
output path does not exist at the end of the run, each prefixed with its
1-based discovery index. -/
theorem failed_manifest_correct (w : World) (r : RunReport)
    (h : (convert_folder w).report = some r) :
    ((convert_folder w).manifest.isSome ↔ 0 < r.failedCount) ∧
    ((convert_folder w).manifest =
      if 0 < r.failedCount then
        some (((List.enumFrom 1 (discovered w)).filter (fun p => !p.2.outExistsAtEnd)).map
          (fun p => (Nat.repr p.1).toList ++ manifestSep ++ p.2.name))
      else none) := by
  cases hp : get_ffmpeg_path w.toolAvailable with
  | none =>
    rw [convert_folder_none w hp] at h
    exact absurd h (by simp)
  | some p =>
    cases he : (discovered w).isEmpty with
    | true =>
      rw [convert_folder_empty w p hp he] at h
      exact absurd h (by simp)
    | false =>
      rw [convert_folder_main w p hp he] at h
      dsimp only at h
      rw [Option.some_inj] at h
      subst h
      rw [convert_folder_main w p hp he]
      dsimp only
      by_cases hlt : (runLoop (discovered w)).1 < (discovered w).length
      · rw [if_pos hlt, if_pos (by omega)]
        exact ⟨by simp; omega, rfl⟩
      · rw [if_neg hlt, if_neg (by omega)]
        exact ⟨by simp; omega, rfl⟩

def bName : List Char := "b.mp4".toList

def fileBad : WalkedFile := ⟨bName, 5, false, 0, envFail, true, 2000, false⟩

def aOutName : List Char := "a.mpeg".toList

def w7 : World := ⟨fun _ => true, [fileA, fileBad], [(aOutName, 400)]⟩

def manifestLineB : List Char := "2. b.mp4".toList

/-- Witness for C7, the spec's scenario: a.mp4 converts, b.mp4 fails, so
the manifest holds exactly the line "2. b.mp4". -/
theorem failed_manifest_correct_witness :
    (convert_folder w7).report = some ⟨2, 1, 1⟩ ∧
    (convert_folder w7).manifest = some [manifestLineB] := by
  refine ⟨rfl, ?_⟩
  have h := (failed_manifest_correct w7 ⟨2, 1, 1⟩ rfl).2
  rw [h]
  rfl

/-- Sum a list through a fold starting from an accumulator. -/
theorem foldl_add_eq_sum {α : Type} (g : α → Nat) :
    ∀ (l : List α) (a : Nat), l.foldl (fun acc x => acc + g x) a = a + (l.map g).sum
  | [], a => by simp
  | x :: xs, a => by
    rw [List.foldl_cons, foldl_add_eq_sum g xs (a + g x)]
    simp [List.map_cons, List.sum_cons]
    omega

def w9 : World := ⟨fun _ => true, [fileBad], []⟩

/-- Counterexample to C9 as stated: this run reaches the report (one
discovered file, which fails), yet no size aggregates are computed or
emitted, because the success count is zero. -/
theorem size_report_missing_when_no_success :
    (convert_folder w9).report = some ⟨1, 0, 1⟩ ∧
    (convert_folder w9).sizeReport = none :=
  ⟨rfl, rfl⟩

/-- C9 (amended): when at least one file counted as success the run
emits the size block — input aggregate the sum of the sizes of the still
existing discovered inputs, output aggregate the sum of the sizes of all
".mpeg"-named files in the output directory, savings percentage
zero-guarded — and when the success count is zero the size block is
omitted from the report. -/
theorem size_aggregates_correct (w : World) (r : RunReport)
    (h : (convert_folder w).report = some r) :
    ((0 < r.successCount →
        (convert_folder w).sizeReport =
          some (mkSizeReport (totalInputSize (discovered w)) (totalOutputSize w.outputListing))) ∧
      (r.successCount = 0 → (convert_folder w).sizeReport = none)) ∧
    totalInputSize (discovered w) =
      (((discovered w).filter (fun f => f.existsAtReport)).map (fun f => f.sizeAtReport)).sum ∧
    totalOutputSize w.outputListing =
      ((w.outputListing.filter (fun p => endsWith dotMpeg p.1)).map (fun p => p.2)).sum ∧
    (totalInputSize (discovered w) = 0 →
      (mkSizeReport (totalInputSize (discovered w)) (totalOutputSize w.outputListing)).savingsPercent
        = 0) := by
  refine ⟨?_, ?_, ?_, ?_⟩
  · cases hp : get_ffmpeg_path w.toolAvailable with
    | none =>
      rw [convert_folder_none w hp] at h
      exact absurd h (by simp)
    | some p =>
      cases he : (discovered w).isEmpty with
      | true =>
        rw [convert_folder_empty w p hp he] at h
        exact absurd h (by simp)
      | false =>
        rw [convert_folder_main w p hp he] at h
        dsimp only at h
        rw [Option.some_inj] at h
        subst h
        rw [convert_folder_main w p hp he]
        dsimp only
        constructor
        · intro hpos
          rw [if_pos hpos]
        · intro hzero
          rw [if_neg (by omega)]
  · rw [totalInputSize, foldl_add_eq_sum]
    simp
  · rw [totalOutputSize, foldl_add_eq_sum]
    simp
  · intro h0
    rw [h0]
    simp [mkSizeReport]

def w9b : World := ⟨fun _ => true, [fileA], [(aOutName, 400)]⟩

/-- Witness for C9 (amended): a run with one successful conversion emits
the size block built from the aggregate sums. -/
theorem size_aggregates_correct_witness :
    (convert_folder w9b).report = some ⟨1, 1, 0⟩ ∧
    (convert_folder w9b).sizeReport =
      some (mkSizeReport (totalInputSize (discovered w9b)) (totalOutputSize w9b.outputListing)) :=
  ⟨rfl, (size_aggregates_correct w9b ⟨1, 1, 0⟩ rfl).1.1 (by decide)⟩

/-- Witness for C4: the two-file run reports 1 success and 1 failure out
of 2, and the counters add up. -/
theorem report_counts_invariant_witness :
    (convert_folder w7).report = some ⟨2, 1, 1⟩ ∧ (1 : Nat) + 1 = 2 :=
  ⟨rfl, report_counts_invariant w7 ⟨2, 1, 1⟩ rfl⟩
